import Mathlib

/-!
# Verification of the mcper plugin aggregator

Shallow embedding, in Lean 4, of the parts of the `joshcarp/mcper`
repository that the verified properties talk about:

* the MCP tool-forwarding handlers of `cmd/mcper` (`runWASMModule`,
  `loadHTTPPlugin`, `loadCloudPlugin`) and the namespaced tool
  registration they perform;
* the plugin-loading loop of `runServe`;
* `WasmHost.LoadModule` of `pkg/wasmhost`;
* `SaveToCache` / `VerifyCache` of `pkg/mcper/cache.go`;
* `ParsePluginSource` / `PluginURL` of `pkg/mcper/plugin.go`;
* the length-prefixed native-messaging framing of
  `cmd/chrome-bridge/main.go` (`readNativeMessages`,
  `writeNativeMessage`).

Go strings are embedded as `List Char` (written `Str`), byte payloads
as `List Nat` with values below 256, and fallible Go functions as
`Except String`-valued Lean functions.  External collaborators (the
wazero compiler, SHA-256, the JSON codec of `encoding/json`) enter as
explicit function parameters, so every definition stays executable.
-/

namespace Mcper

/-- Go strings, embedded as lists of characters. -/
abbrev Str := List Char

/-- Characters of a string literal, as the embedded string type. -/
def str (s : String) : Str := s.data

/-! ## MCP call results and the forwarding handlers

From `src/unnamed/part_008`.  The `mcp.CallToolResult` content that the
handlers touch is text content only, so content is embedded as a list
of text blocks. -/

/-- One `mcp.Content` block; the forwarding handlers only ever build
`mcp.TextContent`, so a block is its text. -/
inductive Content where
  | text (s : String)
  deriving DecidableEq, Repr

/-- `mcp.CallToolResult`: the fields the forwarding handlers read and
write (`Meta`, `Content`, `IsError`).  `Meta` is carried as an opaque
association list. -/
structure CallToolResult where
  meta : List (String × String)
  content : List Content
  isError : Bool
  deriving DecidableEq, Repr

/-- Outcome of `toolSession.CallTool` on the backend session: a Go
`(result, err)` pair with exactly one side set. -/
abbrev BackendOutcome := Except String CallToolResult

/-- The forwarding handler installed by `runWASMModule` (and, with the
message prefix as a parameter, by `loadHTTPPlugin` and
`loadCloudPlugin`): on a backend call error it returns a result with
`IsError: true` whose text is `prefix ++ error`, and a `nil` handler
error; on a backend result it copies `Meta`, `Content` and `IsError`
over, again with a `nil` handler error.  The `Except` on the outside is
the handler's own Go `error` return value. -/
def forwardToolHandler (failText : String) (outcome : BackendOutcome) :
    Except String CallToolResult :=
  match outcome with
  | .error e =>
      .ok { meta := [], content := [Content.text (failText ++ e)], isError := true }
  | .ok result =>
      .ok { meta := result.meta, content := result.content, isError := result.isError }

/-- The literal text the WASM and HTTP forwarding handlers put before the
backend error: `fmt.Sprintf("Tool call failed: %v", err)`. -/
def wasmFailText : String := "Tool call failed: "

/-- The literal text the cloud forwarding handler puts before the backend
error. -/
def cloudFailText : String := "Cloud tool call failed: "

/-! ## String utilities

Embeddings, on `List Char`, of the Go standard-library string and path
functions the repository calls: `strings.HasPrefix`/`TrimPrefix`/
`TrimSuffix` and `path/filepath.Base`. -/

/-- Strip `pat` from the front of `l`, or `none` when `pat` is not a
leading segment of `l` (the test inside Go's `strings.TrimPrefix` and
`strings.HasPrefix`). -/
def dropStart? : Str → Str → Option Str
  | [], l => some l
  | _ :: _, [] => none
  | p :: ps, c :: cs => if p = c then dropStart? ps cs else none

/-- `strings.HasPrefix l pat`. -/
def goHasPrefix (pat l : Str) : Bool := (dropStart? pat l).isSome

/-- Strip `suf` from the back of `l`, or `none` when `l` does not end
with `suf`. -/
def endsWithDrop? (suf l : Str) : Option Str :=
  (dropStart? suf.reverse l.reverse).map List.reverse

/-- `strings.TrimPrefix`: drops a leading `pat` and otherwise returns
the string unchanged. -/
def goTrimHead (l pat : Str) : Str :=
  match dropStart? pat l with
  | some r => r
  | none => l

/-- `strings.TrimSuffix`: drops a trailing `suf` and otherwise returns
the string unchanged. -/
def goTrimTail (l suf : Str) : Str :=
  match endsWithDrop? suf l with
  | some r => r
  | none => l

/-- The trailing-separator strip at the top of `filepath.Base`. -/
def dropTrailingSlashes (l : Str) : Str := (l.reverse.dropWhile (· = '/')).reverse

/-- The final path element: everything after the last `'/'`. -/
def afterLastSlash (l : Str) : Str := (l.reverse.takeWhile (· ≠ '/')).reverse

/-- `path/filepath.Base` on Unix: `"."` for the empty path, `"/"` for a
path of only separators, otherwise the last element of the path after
trailing separators are removed. -/
def filepathBase (l : Str) : Str :=
  if l = [] then str "."
  else
    let stripped := dropTrailingSlashes l
    if stripped = [] then str "/" else afterLastSlash stripped

/-! ## Namespaced tool registration

From `runWASMModule` / `loadLocalWASM` / `loadHTTPPlugin` /
`loadCloudPlugin` in `src/unnamed/part_008`. -/

/-- The plugin display name `loadLocalWASM` derives from a local source
path: `strings.TrimPrefix(strings.TrimSuffix(filepath.Base(source),
".wasm"), "plugin-")`. -/
def localWasmPluginName (source : Str) : Str :=
  goTrimHead (goTrimTail (filepathBase source) (str ".wasm")) (str "plugin-")

/-- The namespaced registered tool name
`fmt.Sprintf("%s/%s/%s", kind, pluginName, tool.Name)`. -/
def namespacedName (kind inst tool : Str) : Str :=
  kind ++ str "/" ++ inst ++ str "/" ++ tool

/-- The backend-kind component of the namespace chosen by
`runWASMModule`: `"cloud"` for cloud-marked plugins, `"wasm"`
otherwise. -/
def wasmNamespaceKind (isCloud : Bool) : Str :=
  if isCloud then str "cloud" else str "wasm"

/-- `jsonschema.Schema`, reduced to the one field the registration loop
inspects (`Type`). -/
structure SchemaV where
  typ : String
  deriving DecidableEq, Repr

/-- The fallback schema the loop substitutes:
`&jsonschema.Schema{Type: "object", Properties: ...}`. -/
def defaultSchema : SchemaV := ⟨"object"⟩

/-- `inputSchema == nil || inputSchema.Type == ""` is replaced by the
default object schema. -/
def effSchema : Option SchemaV → SchemaV
  | none => defaultSchema
  | some s => if s.typ = "" then defaultSchema else s

/-- One tool as returned by a backend's `ListTools`. -/
structure ToolInfo where
  name : Str
  description : String
  inputSchema : Option SchemaV
  deriving DecidableEq, Repr

/-- One entry of the outward tool set: the registered (namespaced) name,
the forwarded description and schema, and the original tool name the
forwarding handler closes over. -/
structure ToolRegistration where
  name : Str
  description : String
  inputSchema : SchemaV
  origTool : Str
  deriving DecidableEq, Repr

/-- The per-tool registration loop of `runWASMModule` (and of the HTTP
and cloud loaders, which differ only in the namespace text): each listed
tool is registered under its namespaced name with the schema default
applied, and the handler closes over the original tool name. -/
def registerTools (kind inst : Str) (tools : List ToolInfo) : List ToolRegistration :=
  tools.map fun t =>
    { name := namespacedName kind inst t.name
      description := t.description
      inputSchema := effSchema t.inputSchema
      origTool := t.name }

/-- The `mcp.CallToolParams` the forwarding handler sends to the
backend: `&mcp.CallToolParams{Name: toolName, Arguments:
params.Arguments}`.  `Args` is the caller's argument payload, carried
opaquely. -/
structure CallToolParams (Args : Type) where
  name : Str
  arguments : Args
  deriving DecidableEq, Repr

/-- The backend request built by a registration's forwarding handler on
caller arguments `args`: the original (non-namespaced) tool name with
the arguments verbatim. -/
def forwardedCall {Args : Type} (reg : ToolRegistration) (args : Args) :
    CallToolParams Args :=
  ⟨reg.origTool, args⟩

/-- Modelled from the spec: the outward tool registry behind
`mcp.Server.AddTool`.  The SDK's implementation is not part of this
repository's sources; the spec requires that namespaces be unique
within one aggregator instance and that a collision be surfaced as a
configuration error at startup, not silently overwrite the prior
registration.  The registry is the append-only list of registered
names; adding a name already present is rejected. -/
def addTool (reg : List Str) (n : Str) : Except String (List Str) :=
  if n ∈ reg then .error "tool name collision" else .ok (reg ++ [n])

/-! ## The plugin-loading loop of `runServe`

From `src/unnamed/part_008` lines 293–408. -/

/-- `mcper.PluginConfig`, restricted to the fields the loading loop
branches on. -/
structure PluginCfg where
  source : String
  isCloud : Bool
  deriving DecidableEq, Repr

/-- The branch of `runServe`'s `switch parsed.Type` a non-cloud plugin
falls into. -/
inductive BackendKind where
  | localWasm
  | remoteWasm
  | httpDirect
  deriving DecidableEq, Repr

/-- Outcome of the per-plugin loader call (`loadCloudPlugin`,
`loadLocalWASM`, `loadRemoteWASM` or `loadHTTPPlugin`). -/
inductive LoadResult where
  | ok
  | err (msg : String)
  deriving DecidableEq, Repr

/-- The wrapped error `runServe` returns when a plugin's loader fails:
`fmt.Errorf("failed to load cloud plugin %s: %w", ...)` for cloud-marked
plugins (checked before the type switch), otherwise the branch-specific
message of the type switch. -/
def loadFailText (p : PluginCfg) (k : BackendKind) (e : String) : String :=
  if p.isCloud then "failed to load cloud plugin " ++ p.source ++ ": " ++ e
  else
    match k with
    | .localWasm => "failed to load local WASM " ++ p.source ++ ": " ++ e
    | .remoteWasm => "failed to load remote WASM " ++ p.source ++ ": " ++ e
    | .httpDirect => "failed to load HTTP plugin " ++ p.source ++ ": " ++ e

/-- The `for i, plugin := range config.Plugins` loop of `runServe`, with
each configured plugin paired with its branch and its loader's outcome:
every loader failure — cloud-marked or not — makes `runServe` return
the wrapped error, aborting startup; on success the session is recorded
and the loop continues.  Returns the number of loaded plugins. -/
def serveLoadLoop : List (PluginCfg × BackendKind × LoadResult) → Except String Nat
  | [] => .ok 0
  | (p, k, .err e) :: _ => .error (loadFailText p k e)
  | (_, _, .ok) :: rest => (serveLoadLoop rest).map (· + 1)

/-- The remote-server discovery step of `runServe`: a failing
`mcper.FetchRemoteServers` is only logged (`"Warning: failed to fetch
remote servers"`) and the locally-declared plugin list is kept
unchanged; on success each fetched server URL is appended as a plugin
marked `IsCloud: true`. -/
def applyRemoteDiscovery (plugins : List PluginCfg)
    (fetched : Except String (List String)) : List PluginCfg :=
  match fetched with
  | .error _ => plugins
  | .ok urls => plugins ++ urls.map fun u => { source := u, isCloud := true }

/-! ## The module compiler/cache

From `WasmHost.LoadModule` in `src/unnamed/part_015`.  The wazero
compiler (`runtime.CompileModule`) is an external collaborator and
enters as the function parameter `compileM`; the host's `cache` map is
an association list with the most recent insertion first. -/

/-- Module bytecode bytes. -/
abbrev ByteCode := List Nat

/-- `WasmHost.LoadModule`: reject a name already in the cache, else
compile the bytes and insert the compiled module under the name. -/
def loadModule {M : Type} (compileM : ByteCode → Except String M)
    (cache : List (String × M)) (name : String) (bytes : ByteCode) :
    Except String (List (String × M)) :=
  if (cache.lookup name).isSome then
    .error ("module " ++ name ++ " is already loaded")
  else
    match compileM bytes with
    | .error e => .error ("failed to compile wasm module " ++ name ++ ": " ++ e)
    | .ok m => .ok ((name, m) :: cache)

/-! ## Plugin sources and the integrity cache

From `pkg/mcper/plugin.go` and `pkg/mcper/cache.go`. -/

/-- `mcper.PluginType`. -/
inductive PluginType where
  | wasm
  | local
  | http
  deriving DecidableEq, Repr

/-- `mcper.ParsedPlugin`. -/
structure ParsedPlugin where
  type : PluginType
  name : Str
  version : Str
  rawURL : Str
  deriving DecidableEq, Repr

/-- `filepath.Join` of two components.  Path cleaning is elided: the
verified properties depend only on the joined text, never on `..` or
duplicate-separator normalization. -/
def joinPath (a b : Str) : Str :=
  if a = [] then b else if b = [] then a else a ++ '/' :: b

/-- The cache file stem `p.Name` or `p.Name@p.Version`. -/
def cacheFilename (p : ParsedPlugin) : Str :=
  if p.version = [] then p.name else p.name ++ str "@" ++ p.version

/-- `ParsedPlugin.CachePath`: empty for non-WASM plugins, else
`cacheDir/plugins/<stem>.wasm`. -/
def cachePath (cacheDir : Str) (p : ParsedPlugin) : Str :=
  if p.type = PluginType.wasm then
    joinPath (joinPath cacheDir (str "plugins")) (cacheFilename p ++ str ".wasm")
  else []

/-- `ParsedPlugin.MetadataPath`: empty for non-WASM plugins, else
`cacheDir/plugins/<stem>.json`. -/
def metadataPath (cacheDir : Str) (p : ParsedPlugin) : Str :=
  if p.type = PluginType.wasm then
    joinPath (joinPath cacheDir (str "plugins")) (cacheFilename p ++ str ".json")
  else []

/-- `mcper.Permissions`. -/
structure PermissionsV where
  network : List String
  filesystem : List String
  deriving DecidableEq, Repr

/-- `mcper.CacheMetadata`.  The SHA-256 hex digest is carried as the
opaque value of the hash function parameter; `DownloadedAt` is the
clock value passed in. -/
structure CacheMeta where
  source : Str
  sha256 : List Nat
  size : Nat
  downloadedAt : Nat
  permissions : Option PermissionsV
  env : List String
  deriving DecidableEq, Repr

/-- The on-disk state the cache touches: an association from path to
file bytes, most recent write first (`os.WriteFile` truncates, so the
newest write wins). -/
abbrev Disk := List (Str × List Nat)

/-- `os.WriteFile`: replace whatever is at `path` with `b`.  I/O
failures of the real call are not modelled; the spec treats a partial
write as something the next verification catches. -/
def diskWrite (d : Disk) (path : Str) (b : List Nat) : Disk := (path, b) :: d

/-- Read the current bytes at `path`. -/
def diskRead : Disk → Str → Option (List Nat)
  | [], _ => none
  | (p, b) :: rest, q => if q = p then some b else diskRead rest q

/-- `mcper.CacheEntry`. -/
structure CacheEntryV where
  wasmPath : Str
  metadataPath : Str
  metadata : Option CacheMeta
  deriving DecidableEq, Repr

/-- `mcper.SaveToCache`: hash the payload, write the artifact bytes,
then write the metadata file (serialized by the external `json`
encoder, the parameter `encodeMeta`), and return the populated entry.
`hash` stands for the SHA-256 hex digest and `now` for
`time.Now().UTC()`. -/
def saveToCache (hash : List Nat → List Nat) (encodeMeta : CacheMeta → List Nat)
    (now : Nat) (disk : Disk) (cacheDir : Str) (p : ParsedPlugin)
    (wasmData : List Nat) (perms : Option PermissionsV) (envVars : List String) :
    Disk × CacheEntryV :=
  let wasmP := cachePath cacheDir p
  let metaP := metadataPath cacheDir p
  let meta : CacheMeta :=
    { source := p.rawURL
      sha256 := hash wasmData
      size := wasmData.length
      downloadedAt := now
      permissions := perms
      env := envVars }
  let disk₁ := diskWrite disk wasmP wasmData
  let disk₂ := diskWrite disk₁ metaP (encodeMeta meta)
  (disk₂, ⟨wasmP, metaP, some meta⟩)

/-- `mcper.VerifyCache`: `(false, nil)` when the entry carries no
metadata; an error when the artifact cannot be opened; otherwise the
comparison of the recomputed digest with the stored one. -/
def verifyCache (hash : List Nat → List Nat) (disk : Disk) (entry : CacheEntryV) :
    Except String Bool :=
  match entry.metadata with
  | none => .ok false
  | some meta =>
      match diskRead disk entry.wasmPath with
      | none => .error "failed to open WASM file"
      | some b => .ok (decide (hash b = meta.sha256))

/-! ## The automation-bridge framing protocol

From `Bridge.readNativeMessages` and `Bridge.writeNativeMessage` in
`src/cmd/chrome-bridge/main.go`.  A stream is a finite list of byte
values; the external JSON codec (`encoding/json`) enters as the
`decode`/`encode` function parameters. -/

/-- The native-messaging `Message` struct of the bridge. -/
structure BridgeMessage where
  id : String
  command : String
  params : String
  success : Bool
  errText : String
  result : String
  deriving DecidableEq, Repr

/-- The value of a 4-byte little-endian length field
(`binary.LittleEndian`). -/
def leU32 (b0 b1 b2 b3 : Nat) : Nat :=
  b0 + 256 * b1 + 65536 * b2 + 16777216 * b3

/-- The 4 little-endian bytes `binary.Write` emits for the 32-bit value
`n` (with `uint32` wraparound above `2^32`). -/
def le32 (n : Nat) : List Nat :=
  [n % 256, n / 256 % 256, n / 65536 % 256, n / 16777216 % 256]

/-- The reader's sanity bound on a declared length: `1024*1024`. -/
def bridgeMaxLen : Nat := 1024 * 1024

/-- One run of the `for` loop body of `Bridge.readNativeMessages`,
iterated over a finite stream; `fuel` only bounds the iteration count
(each iteration consumes at least the 4 header bytes, so a fuel of the
stream length is ample).  Mirrors the Go loop exactly: fewer than 4
remaining bytes is an EOF/short length read and the loop ends; a
declared length above the bound is logged and the loop `continue`s
*without consuming any payload*; a payload that cannot be fully read
consumes the remainder and then ends at EOF; an undecodable payload is
logged and skipped; a decoded message is delivered. -/
def readFramesAux (decode : List Nat → Except String BridgeMessage) :
    Nat → List Nat → List BridgeMessage
  | 0, _ => []
  | fuel + 1, b0 :: b1 :: b2 :: b3 :: rest =>
      if leU32 b0 b1 b2 b3 > bridgeMaxLen then
        readFramesAux decode fuel rest
      else if rest.length < leU32 b0 b1 b2 b3 then
        readFramesAux decode fuel (rest.drop (leU32 b0 b1 b2 b3))
      else
        match decode (rest.take (leU32 b0 b1 b2 b3)) with
        | .error _ => readFramesAux decode fuel (rest.drop (leU32 b0 b1 b2 b3))
        | .ok m => m :: readFramesAux decode fuel (rest.drop (leU32 b0 b1 b2 b3))
  | _ + 1, _ => []

/-- `Bridge.readNativeMessages` on a finite stream: the list of
structured messages the loop parses, in order. -/
def readNativeMessages (decode : List Nat → Except String BridgeMessage)
    (input : List Nat) : List BridgeMessage :=
  readFramesAux decode input.length input

/-- `Bridge.writeNativeMessage`: the serialized payload preceded by its
4-byte little-endian length. -/
def writeNativeMessage (encode : BridgeMessage → List Nat) (m : BridgeMessage) :
    List Nat :=
  le32 (encode m).length ++ encode m

/-- A concrete stand-in for the JSON codec, used to instantiate the
framing theorems: it serializes exactly one message. -/
def demoMsg : BridgeMessage :=
  { id := "req-1", command := "", params := "", success := true
    errText := "", result := "navigated" }

/-- Serializer of the demo codec. -/
def demoEncode (m : BridgeMessage) : List Nat := if m = demoMsg then [1] else [0]

/-- Deserializer of the demo codec. -/
def demoDecode (b : List Nat) : Except String BridgeMessage :=
  if b = [1] then .ok demoMsg else .error "invalid JSON"

/-- `k` back-to-back copies of the 4-byte block `FF FF FF FF`: each
block, read as a little-endian length, is `4294967295`, far above the
reader's bound. -/
def oversizeBlocks : Nat → List Nat
  | 0 => []
  | k + 1 => 255 :: 255 :: 255 :: 255 :: oversizeBlocks k

/-- The payload of the desynchronizing oversized frame: `1048578`
bytes, two more than the bound, misaligned by two bytes against the
4-byte header grid. -/
def oversizePayload : List Nat := oversizeBlocks 262144 ++ [255, 255]

/-- A well-formed one-byte frame of the demo codec: declared length 1,
then the payload `[1]`, which decodes to `demoMsg`. -/
def wellFormedFrame : List Nat := le32 1 ++ [1]

/-- A stream carrying one oversized frame (declared length `1048578`
with exactly that many payload bytes) followed by one well-formed
frame. -/
def desyncStream : List Nat := le32 1048578 ++ oversizePayload ++ wellFormedFrame

/-! ## The plugin source resolver

From `ParsePluginSource`, `pluginURLPattern` and `PluginURL` in
`pkg/mcper/plugin.go`.  The anchored regular expression
`^https://storage\.googleapis\.com/mcper-releases/([^/]+)/plugin-([^/]+)\.wasm$`
is embedded as the equivalent deterministic decomposition
`matchPluginURL`; the `net/url` scheme scanner (`getScheme`) is
embedded in `urlParseGo`, with authority/host validation and
query/fragment splitting elided (no verified property inspects the
path of an HTTP plugin). -/

/-- `GCSBaseURL`. -/
def gcsBaseURL : Str := str "https://storage.googleapis.com/mcper-releases"

/-- Split at the first `'/'`: the slash-free part before it and the
part after it, or `none` when the string has no slash. -/
def splitFirstSlash : Str → Option (Str × Str)
  | [] => none
  | c :: cs =>
      if c = '/' then some ([], cs)
      else (splitFirstSlash cs).map fun p => (c :: p.1, p.2)

/-- The match of `pluginURLPattern` against a source string: the
version segment (nonempty, slash-free) and the plugin name between the
literal `plugin-` and the final `.wasm` (nonempty, slash-free), or
`none` when the pattern does not match. -/
def matchPluginURL (source : Str) : Option (Str × Str) :=
  match dropStart? (gcsBaseURL ++ str "/") source with
  | none => none
  | some rest =>
      match splitFirstSlash rest with
      | none => none
      | some (v, tail) =>
          if v = [] then none
          else
            match dropStart? (str "plugin-") tail with
            | none => none
            | some t =>
                match endsWithDrop? (str ".wasm") t with
                | none => none
                | some n => if n = [] ∨ '/' ∈ n then none else some (v, n)

/-- The slice of `net/url.URL` that `ParsePluginSource` reads. -/
structure URLv where
  scheme : Str
  path : Str
  deriving DecidableEq, Repr

/-- The scanner loop of `net/url`'s `getScheme`: alphabetic characters
may continue a scheme; digits and `+ - .` may continue but not start
one; a colon ends it (erroring when it comes first); anything else
means the string has no scheme. -/
def getSchemeAux (orig : Str) : Str → Str → Bool → Except String (Str × Str)
  | [], _, _ => .ok ([], orig)
  | c :: cs, acc, first =>
      if ('a' ≤ c ∧ c ≤ 'z') ∨ ('A' ≤ c ∧ c ≤ 'Z') then
        getSchemeAux orig cs (acc ++ [c]) false
      else if ('0' ≤ c ∧ c ≤ '9') ∨ c = '+' ∨ c = '-' ∨ c = '.' then
        if first then .ok ([], orig) else getSchemeAux orig cs (acc ++ [c]) false
      else if c = ':' then
        if first then .error "missing protocol scheme"
        else .ok (acc, cs)
      else .ok ([], orig)

/-- `net/url.getScheme`: the scheme (possibly empty) and the remainder
after the colon. -/
def getSchemeGo (l : Str) : Except String (Str × Str) := getSchemeAux l l [] true

/-- The path component of the remainder after the scheme: behind a
`//` authority the path starts at the next slash; a rootless remainder
is opaque and has an empty path. -/
def urlPathOf (rest : Str) : Str :=
  if goHasPrefix (str "//") rest then
    match splitFirstSlash (rest.drop 2) with
    | none => []
    | some (_, after) => '/' :: after
  else if goHasPrefix (str "/") rest then rest
  else []

/-- `net/url.Parse`, reduced to the fields `ParsePluginSource` reads:
the lowercased scheme and the path. -/
def urlParseGo (source : Str) : Except String URLv :=
  match getSchemeGo source with
  | .error e => .error e
  | .ok (scheme, rest) => .ok ⟨scheme.map Char.toLower, urlPathOf rest⟩

/-- `mcper.ParsePluginSource`, with the external `net/url.Parse` as the
parameter `urlParse`: local-path sources first, then the registry
artifact pattern, then a generic URL whose scheme must be `http` or
`https`.  A total, deterministic function of its input — it performs no
I/O. -/
def parsePluginSource (urlParse : Str → Except String URLv) (source : Str) :
    Except String ParsedPlugin :=
  if goHasPrefix (str "./") source || goHasPrefix (str "/") source then
    .ok ⟨PluginType.local, filepathBase source, [], source⟩
  else
    match matchPluginURL source with
    | some (v, n) => .ok ⟨PluginType.wasm, n, v, source⟩
    | none =>
        match urlParse source with
        | .error e => .error ("invalid plugin source: " ++ e)
        | .ok u =>
            if u.scheme = str "http" ∨ u.scheme = str "https" then
              .ok ⟨PluginType.http, u.path, [], source⟩
            else
              .error ("unsupported plugin scheme: " ++ String.mk u.scheme)

/-- `mcper.PluginURL`: the canonical registry URL for a plugin name at
a version, substituting `latest` for an empty version. -/
def pluginURL (name version : Str) : Str :=
  (if version = [] then str "latest" else version) |> fun v =>
    gcsBaseURL ++ str "/" ++ v ++ str "/plugin-" ++ name ++ str ".wasm"

end Mcper

namespace Mcper

/-- C1: for every backend outcome, the forwarding handler returns a
`nil` handler-level error together with some result; when the backend
call itself errors the result is error-marked and carries the backend
error text after the handler's prefix; when the backend returns an
error-marked result the handler's result is error-marked with the
backend's content forwarded verbatim.  The handler never produces a
handler-level (`Except.error`) failure. -/
theorem forward_handler_maps_backend_failures (failText : String)
    (outcome : BackendOutcome) :
    (∃ r, forwardToolHandler failText outcome = .ok r) ∧
    (∀ e, outcome = .error e →
      forwardToolHandler failText outcome =
        .ok { meta := [], content := [Content.text (failText ++ e)], isError := true }) ∧
    (∀ r₀, outcome = .ok r₀ → r₀.isError = true →
      ∃ r, forwardToolHandler failText outcome = .ok r ∧
        r.isError = true ∧ r.content = r₀.content) := by
  refine ⟨?_, ?_, ?_⟩
  · cases outcome with
    | error e => exact ⟨_, rfl⟩
    | ok r => exact ⟨_, rfl⟩
  · intro e he
    subst he
    rfl
  · intro r₀ h he
    subst h
    exact ⟨_, rfl, he, rfl⟩

/-- Witness for `forward_handler_maps_backend_failures` at a concrete
failing backend call. -/
theorem forward_handler_maps_backend_failures_witness :
    forwardToolHandler wasmFailText (.error "connection reset") =
      .ok { meta := [], content := [Content.text "Tool call failed: connection reset"],
            isError := true } :=
  (forward_handler_maps_backend_failures wasmFailText
    (.error "connection reset")).2.1 "connection reset" rfl

/-- Splitting at a separator character is unambiguous when neither left
part contains the separator. -/
theorem append_sep_inj (c : Char) :
    ∀ a₁ a₂ r₁ r₂ : Str, c ∉ a₁ → c ∉ a₂ →
      a₁ ++ c :: r₁ = a₂ ++ c :: r₂ → a₁ = a₂ ∧ r₁ = r₂ := by
  intro a₁
  induction a₁ with
  | nil =>
    intro a₂ r₁ r₂ _ h₂ h
    cases a₂ with
    | nil => simpa using h
    | cons b bs =>
      simp only [List.nil_append, List.cons_append, List.cons.injEq] at h
      exact absurd (h.1 ▸ List.mem_cons_self b bs) h₂
  | cons a as ih =>
    intro a₂ r₁ r₂ h₁ h₂ h
    cases a₂ with
    | nil =>
      simp only [List.nil_append, List.cons_append, List.cons.injEq] at h
      exact absurd (h.1 ▸ List.mem_cons_self a as) h₁
    | cons b bs =>
      simp only [List.cons_append, List.cons.injEq] at h
      obtain ⟨rfl, h⟩ := h
      obtain ⟨rfl, rfl⟩ :=
        ih bs r₁ r₂ (fun hm => h₁ (List.mem_cons_of_mem _ hm))
          (fun hm => h₂ (List.mem_cons_of_mem _ hm)) h
      exact ⟨rfl, rfl⟩

/-- The namespaced name determines kind, instance and tool name when the
kind and instance texts are slash-free. -/
theorem namespacedName_inj (k₁ i₁ t₁ k₂ i₂ t₂ : Str)
    (hk₁ : '/' ∉ k₁) (hi₁ : '/' ∉ i₁) (hk₂ : '/' ∉ k₂) (hi₂ : '/' ∉ i₂)
    (h : namespacedName k₁ i₁ t₁ = namespacedName k₂ i₂ t₂) :
    k₁ = k₂ ∧ i₁ = i₂ ∧ t₁ = t₂ := by
  have hs : str "/" = ['/'] := rfl
  simp only [namespacedName, hs, List.append_assoc, List.singleton_append] at h
  obtain ⟨hk, h₂⟩ := append_sep_inj '/' k₁ k₂ _ _ hk₁ hk₂ h
  obtain ⟨hi, ht⟩ := append_sep_inj '/' i₁ i₂ _ _ hi₁ hi₂ h₂
  exact ⟨hk, hi, ht⟩

/-- C2 counterexample: two distinct configured local backends whose
source files share the base name `plugin-x.wasm` derive the same plugin
instance name, so a tool named `echo` exposed by both is registered
under one and the same namespaced name — the registered names do not
differ in their backend-kind/instance prefix. -/
theorem same_basename_local_sources_collide :
    str "./plugins-a/plugin-x.wasm" ≠ str "./plugins-b/plugin-x.wasm" ∧
    namespacedName (wasmNamespaceKind false)
        (localWasmPluginName (str "./plugins-a/plugin-x.wasm")) (str "echo") =
      namespacedName (wasmNamespaceKind false)
        (localWasmPluginName (str "./plugins-b/plugin-x.wasm")) (str "echo") := by
  decide

/-- C2 (amended): registered namespaced names are determined by the
backend kind, the derived plugin instance name and the tool name.  Two
backends whose derived kind/instance prefixes differ (and are
slash-free, as all kinds and derived instance names produced by the
loaders are in practice) always register distinct names for any shared
tool name; backends whose derived prefixes coincide (such as two local
files with the same base name) collide.  The outward registry, modelled
from the spec, rejects a registration whose namespaced name is already
present instead of overwriting it, and accepts a fresh name by
appending it. -/
theorem namespaces_unique_and_collisions_rejected :
    (∀ k₁ i₁ k₂ i₂ t : Str, '/' ∉ k₁ → '/' ∉ i₁ → '/' ∉ k₂ → '/' ∉ i₂ →
      (k₁ ≠ k₂ ∨ i₁ ≠ i₂) →
      namespacedName k₁ i₁ t ≠ namespacedName k₂ i₂ t) ∧
    (∀ (reg : List Str) (n : Str), n ∈ reg →
      addTool reg n = .error "tool name collision") ∧
    (∀ (reg : List Str) (n : Str), n ∉ reg →
      addTool reg n = .ok (reg ++ [n])) := by
  refine ⟨?_, ?_, ?_⟩
  · intro k₁ i₁ k₂ i₂ t hk₁ hi₁ hk₂ hi₂ hne h
    obtain ⟨rfl, rfl, -⟩ := namespacedName_inj k₁ i₁ t k₂ i₂ t hk₁ hi₁ hk₂ hi₂ h
    rcases hne with hne | hne <;> exact hne rfl
  · intro reg n hmem
    simp [addTool, hmem]
  · intro reg n hmem
    simp [addTool, hmem]

/-- Witness for `namespaces_unique_and_collisions_rejected`: two
backends of the same kind with distinct instance names get distinct
registered names for the tool `echo`, and re-registering an
already-present name is rejected. -/
theorem namespaces_unique_and_collisions_rejected_witness :
    (namespacedName (str "wasm") (str "github") (str "echo") ≠
      namespacedName (str "wasm") (str "linkedin") (str "echo")) ∧
    addTool [str "wasm/github/echo"] (str "wasm/github/echo") =
      .error "tool name collision" :=
  ⟨namespaces_unique_and_collisions_rejected.1 (str "wasm") (str "github")
      (str "wasm") (str "linkedin") (str "echo")
      (by decide) (by decide) (by decide) (by decide) (Or.inr (by decide)),
    namespaces_unique_and_collisions_rejected.2.1 [str "wasm/github/echo"]
      (str "wasm/github/echo") (by decide)⟩

/-- C3: when a backend's capability listing returns exactly one tool
named `echo`, the registration loop produces exactly one outward entry,
registered as `{kind}/{instance}/echo`, and its forwarding handler sends
the backend a call carrying the original tool name `echo` and the
caller's arguments verbatim. -/
theorem echo_listing_registers_one_forwarding_entry (Args : Type)
    (kind inst : Str) (d : String) (sch : Option SchemaV) (args : Args) :
    (registerTools kind inst [⟨str "echo", d, sch⟩]).length = 1 ∧
    (registerTools kind inst [⟨str "echo", d, sch⟩]).map ToolRegistration.name =
      [namespacedName kind inst (str "echo")] ∧
    (∀ reg ∈ registerTools kind inst [⟨str "echo", d, sch⟩],
      forwardedCall reg args = ⟨str "echo", args⟩) := by
  refine ⟨rfl, rfl, ?_⟩
  intro reg hreg
  simp only [registerTools, List.map_cons, List.map_nil, List.mem_singleton] at hreg
  subst hreg
  rfl

/-- Witness for `echo_listing_registers_one_forwarding_entry` at a
concrete backend and argument payload. -/
theorem echo_listing_registers_one_forwarding_entry_witness :
    ∀ reg ∈ registerTools (str "wasm") (str "github")
        [⟨str "echo", "echo a string", none⟩],
      forwardedCall reg (42 : Nat) = ⟨str "echo", 42⟩ :=
  (echo_listing_registers_one_forwarding_entry Nat (str "wasm") (str "github")
    "echo a string" none 42).2.2

/-- C4 counterexample: a single cloud-proxied backend (marked `IsCloud`)
whose session establishment fails makes the loading loop of `runServe`
return an error — the whole aggregation process halts instead of
logging and skipping the backend. -/
theorem cloud_plugin_failure_halts_startup :
    serveLoadLoop
        [({ source := "https://cloud.mcper.com/servers/notion", isCloud := true },
          BackendKind.httpDirect,
          LoadResult.err "failed to connect to cloud MCP server: dial timeout")] =
      .error ("failed to load cloud plugin https://cloud.mcper.com/servers/notion: " ++
        "failed to connect to cloud MCP server: dial timeout") := rfl

/-- C4 (amended): only the *discovery* of remote servers is best-effort:
a failing `FetchRemoteServers` is logged and the already-configured
local plugin list is used unchanged, so the process keeps starting.
Once a backend — cloud-proxied or local — is in the plugin list, a
session-establishment or capability-listing failure during its setup is
fatal: the first failing loader aborts `runServe` with that backend's
wrapped error. -/
theorem discovery_skipped_but_configured_backend_failures_fatal :
    (∀ (plugins : List PluginCfg) (e : String),
      applyRemoteDiscovery plugins (.error e) = plugins) ∧
    (∀ (pre : List (PluginCfg × BackendKind × LoadResult))
        (p : PluginCfg) (k : BackendKind) (e : String)
        (rest : List (PluginCfg × BackendKind × LoadResult)),
      (∀ x ∈ pre, x.2.2 = LoadResult.ok) →
      serveLoadLoop (pre ++ (p, k, LoadResult.err e) :: rest) =
        .error (loadFailText p k e)) := by
  constructor
  · intro plugins e
    rfl
  · intro pre
    induction pre with
    | nil =>
      intro p k e rest _
      rfl
    | cons hd tl ih =>
      intro p k e rest hall
      obtain ⟨p₀, k₀, r₀⟩ := hd
      have hr : r₀ = LoadResult.ok := hall _ (List.mem_cons_self _ _)
      subst hr
      have htl := ih p k e rest fun x hx => hall x (List.mem_cons_of_mem _ hx)
      simp only [List.cons_append, serveLoadLoop, Except.map]
      rw [List.append_eq, htl]

/-- Witness for
`discovery_skipped_but_configured_backend_failures_fatal`: a failing
discovery leaves one local plugin in place, and a cloud backend failing
after one successful local plugin still aborts startup. -/
theorem discovery_skipped_but_backend_failures_fatal_witness :
    applyRemoteDiscovery [{ source := "./plugin-hello.wasm", isCloud := false }]
        (.error "503 service unavailable") =
      [{ source := "./plugin-hello.wasm", isCloud := false }] ∧
    serveLoadLoop
        [({ source := "./plugin-hello.wasm", isCloud := false },
            BackendKind.localWasm, LoadResult.ok),
          ({ source := "https://cloud.mcper.com/servers/notion", isCloud := true },
            BackendKind.httpDirect, LoadResult.err "connect refused")] =
      .error "failed to load cloud plugin https://cloud.mcper.com/servers/notion: connect refused" :=
  ⟨discovery_skipped_but_configured_backend_failures_fatal.1 _ "503 service unavailable",
    discovery_skipped_but_configured_backend_failures_fatal.2
      [({ source := "./plugin-hello.wasm", isCloud := false },
        BackendKind.localWasm, LoadResult.ok)]
      { source := "https://cloud.mcper.com/servers/notion", isCloud := true }
      BackendKind.httpDirect "connect refused" [] (by decide)⟩

/-- C5: after a successful `LoadModule(name, b₁)`, a second
`LoadModule(name, b₂)` always fails with the duplicate-name error —
whatever `b₂` is, and whether or not it would compile, because the
existence check precedes compilation — and the cached compiled module
for `name` is left unchanged: it is still the module compiled from
`b₁`. -/
theorem loadModule_duplicate_rejected {M : Type}
    (compileM : ByteCode → Except String M)
    (cache : List (String × M)) (name : String) (b₁ b₂ : ByteCode)
    (cache' : List (String × M))
    (h : loadModule compileM cache name b₁ = .ok cache') :
    loadModule compileM cache' name b₂ =
      .error ("module " ++ name ++ " is already loaded") ∧
    ∃ m, compileM b₁ = .ok m ∧ cache'.lookup name = some m := by
  unfold loadModule at h
  by_cases hmem : (cache.lookup name).isSome
  · simp [hmem] at h
  · simp only [hmem, if_false, Bool.false_eq_true] at h
    cases hc : compileM b₁ with
    | error e => simp [hc] at h
    | ok m =>
      simp only [hc] at h
      injection h with h
      subst h
      refine ⟨?_, m, rfl, ?_⟩
      · unfold loadModule
        simp [List.lookup]
      · simp [List.lookup]

/-- Witness for `loadModule_duplicate_rejected`: loading `"github"`
twice into an empty cache, the second time with different (empty, hence
invalid) bytes. -/
theorem loadModule_duplicate_rejected_witness :
    loadModule (M := ByteCode)
        (fun b => if b = [] then .error "invalid magic number" else .ok b)
        [("github", [0, 97, 115, 109])] "github" [] =
      .error "module github is already loaded" ∧
    ∃ m, (if ([0, 97, 115, 109] : ByteCode) = [] then
            (.error "invalid magic number" : Except String ByteCode)
          else .ok [0, 97, 115, 109]) = .ok m ∧
      [("github", ([0, 97, 115, 109] : ByteCode))].lookup "github" = some m :=
  loadModule_duplicate_rejected
    (fun b => if b = [] then .error "invalid magic number" else .ok b)
    [] "github" [0, 97, 115, 109] [] [("github", [0, 97, 115, 109])] rfl

/-- Appending a nonempty literal keeps a string nonempty. -/
theorem append_str_ne_nil (l : Str) (s : String) (hs : s.data ≠ []) :
    l ++ str s ≠ [] := by
  cases l with
  | nil => simpa [str] using hs
  | cons c cs => simp

/-- Joining the same head with two distinct nonempty tails yields
distinct paths. -/
theorem joinPath_ne_of_tail_ne (X b₁ b₂ : Str) (h : b₁ ≠ b₂)
    (h₁ : b₁ ≠ []) (h₂ : b₂ ≠ []) : joinPath X b₁ ≠ joinPath X b₂ := by
  unfold joinPath
  by_cases hX : X = []
  · simpa [hX] using h
  · simp only [hX, if_false, h₁, h₂]
    intro hh
    have h' := List.append_cancel_left hh
    simp only [List.cons.injEq, true_and] at h'
    exact h h'

/-- The artifact and metadata paths of one cached WASM plugin are
distinct: they share the stem and differ in the `.wasm`/`.json`
suffix. -/
theorem cachePath_ne_metadataPath (cacheDir : Str) (p : ParsedPlugin)
    (hty : p.type = PluginType.wasm) :
    cachePath cacheDir p ≠ metadataPath cacheDir p := by
  have hsuf : cacheFilename p ++ str ".wasm" ≠ cacheFilename p ++ str ".json" := by
    intro h
    exact absurd (List.append_cancel_left h) (by decide)
  have hw : cacheFilename p ++ str ".wasm" ≠ [] := append_str_ne_nil _ _ (by decide)
  have hj : cacheFilename p ++ str ".json" ≠ [] := append_str_ne_nil _ _ (by decide)
  simp only [cachePath, metadataPath, hty, if_true]
  exact joinPath_ne_of_tail_ne _ _ _ hsuf hw hj

/-- Reading back the path just written yields the written bytes. -/
theorem diskRead_write_self (d : Disk) (path : Str) (b : List Nat) :
    diskRead (diskWrite d path b) path = some b := by
  simp [diskWrite, diskRead]

/-- Writing one path leaves reads of a different path unchanged. -/
theorem diskRead_write_other (d : Disk) (p₁ p₂ : Str) (b : List Nat)
    (h : p₁ ≠ p₂) : diskRead (diskWrite d p₂ b) p₁ = diskRead d p₁ := by
  simp [diskWrite, diskRead, h]

/-- C6: storing a payload in the integrity cache and verifying the
returned entry on the resulting disk yields `true`; overwriting the
on-disk artifact with any different byte sequence afterwards makes
verification of that entry yield `false` (and never an exception in
either case).  SHA-256 is carried as the abstract digest function
`hash`, assumed collision-free (injective). -/
theorem cache_store_then_verify (hash : List Nat → List Nat)
    (encodeMeta : CacheMeta → List Nat) (now : Nat) (disk : Disk)
    (cacheDir : Str) (p : ParsedPlugin) (wasmData : List Nat)
    (perms : Option PermissionsV) (envVars : List String)
    (hinj : Function.Injective hash) (hty : p.type = PluginType.wasm) :
    verifyCache hash
        (saveToCache hash encodeMeta now disk cacheDir p wasmData perms envVars).1
        (saveToCache hash encodeMeta now disk cacheDir p wasmData perms envVars).2 =
      .ok true ∧
    ∀ b₂, b₂ ≠ wasmData →
      verifyCache hash
          (diskWrite
            (saveToCache hash encodeMeta now disk cacheDir p wasmData perms envVars).1
            (saveToCache hash encodeMeta now disk cacheDir p wasmData perms envVars).2.wasmPath
            b₂)
          (saveToCache hash encodeMeta now disk cacheDir p wasmData perms envVars).2 =
        .ok false := by
  have hne : cachePath cacheDir p ≠ metadataPath cacheDir p :=
    cachePath_ne_metadataPath cacheDir p hty
  constructor
  · simp only [saveToCache, verifyCache]
    rw [diskRead_write_other _ _ _ _ hne, diskRead_write_self]
    simp
  · intro b₂ hb
    simp only [saveToCache, verifyCache]
    rw [diskRead_write_self]
    simp [decide_eq_false (hinj.ne hb)]

/-- Witness for `cache_store_then_verify` at a concrete plugin, payload
and mutation, with the identity function as the (injective) digest. -/
theorem cache_store_then_verify_witness :
    verifyCache id
        (saveToCache id (fun _ => []) 0 [] (str "cache")
          ⟨PluginType.wasm, str "github", str "v0.1.0", str "u"⟩ [0, 97] none []).1
        (saveToCache id (fun _ => []) 0 [] (str "cache")
          ⟨PluginType.wasm, str "github", str "v0.1.0", str "u"⟩ [0, 97] none []).2 =
      .ok true ∧
    verifyCache id
        (diskWrite
          (saveToCache id (fun _ => []) 0 [] (str "cache")
            ⟨PluginType.wasm, str "github", str "v0.1.0", str "u"⟩ [0, 97] none []).1
          (saveToCache id (fun _ => []) 0 [] (str "cache")
            ⟨PluginType.wasm, str "github", str "v0.1.0", str "u"⟩ [0, 97] none []).2.wasmPath
          [1])
        (saveToCache id (fun _ => []) 0 [] (str "cache")
          ⟨PluginType.wasm, str "github", str "v0.1.0", str "u"⟩ [0, 97] none []).2 =
      .ok false :=
  ⟨(cache_store_then_verify id (fun _ => []) 0 [] (str "cache")
      ⟨PluginType.wasm, str "github", str "v0.1.0", str "u"⟩ [0, 97] none []
      (fun _ _ h => h) rfl).1,
    (cache_store_then_verify id (fun _ => []) 0 [] (str "cache")
      ⟨PluginType.wasm, str "github", str "v0.1.0", str "u"⟩ [0, 97] none []
      (fun _ _ h => h) rfl).2 [1] (by decide)⟩

/-- The reader loop yields nothing on an exhausted stream, at any
fuel. -/
theorem readFramesAux_nil (decode : List Nat → Except String BridgeMessage) :
    ∀ f, readFramesAux decode f [] = []
  | 0 => rfl
  | _ + 1 => rfl

/-- The reader loop's result depends only on the stream once the fuel
covers the stream length. -/
theorem readFramesAux_fuel (decode : List Nat → Except String BridgeMessage) :
    ∀ f (input : List Nat), input.length ≤ f →
      readFramesAux decode f input = readFramesAux decode input.length input := by
  intro f
  induction f using Nat.strong_induction_on with
  | _ f ih =>
    intro input hlen
    cases f with
    | zero =>
      have h0 : input = [] := List.eq_nil_of_length_eq_zero (Nat.le_zero.mp hlen)
      subst h0
      rfl
    | succ f' =>
      rcases input with _ | ⟨b0, _ | ⟨b1, _ | ⟨b2, _ | ⟨b3, rest⟩⟩⟩⟩
      · rfl
      · rfl
      · rfl
      · rfl
      · simp only [List.length_cons] at hlen
        have hf : rest.length + 3 ≤ f' := by omega
        simp only [readFramesAux, List.length_cons]
        by_cases h1 : leU32 b0 b1 b2 b3 > bridgeMaxLen
        · rw [if_pos h1, if_pos h1, ih f' (Nat.lt_succ_self f') rest (by omega),
            ih (rest.length + 3) (by omega) rest (by omega)]
        · rw [if_neg h1, if_neg h1]
          by_cases h2 : rest.length < leU32 b0 b1 b2 b3
          · rw [if_pos h2, if_pos h2,
              List.drop_eq_nil_of_le (Nat.le_of_lt h2),
              readFramesAux_nil, readFramesAux_nil]
          · rw [if_neg h2, if_neg h2]
            have hd : (rest.drop (leU32 b0 b1 b2 b3)).length ≤ rest.length := by
              rw [List.length_drop]
              omega
            cases hdec : decode (rest.take (leU32 b0 b1 b2 b3)) with
            | error e =>
              simp only [hdec]
              rw [ih f' (Nat.lt_succ_self f') _ (by omega),
                ih (rest.length + 3) (by omega) _ (by omega)]
            | ok m =>
              simp only [hdec]
              rw [ih f' (Nat.lt_succ_self f') _ (by omega),
                ih (rest.length + 3) (by omega) _ (by omega)]

/-- An oversized declared length makes the reader consume exactly the
4 header bytes and continue at the next byte. -/
theorem read_step_oversize (decode : List Nat → Except String BridgeMessage)
    (b0 b1 b2 b3 : Nat) (rest : List Nat)
    (h : leU32 b0 b1 b2 b3 > bridgeMaxLen) :
    readNativeMessages decode (b0 :: b1 :: b2 :: b3 :: rest) =
      readNativeMessages decode rest := by
  unfold readNativeMessages
  simp only [List.length_cons, readFramesAux, if_pos h]
  exact readFramesAux_fuel decode (rest.length + 3) rest (by omega)

/-- Taking the length of the left part of an append returns it. -/
theorem take_append_self {α : Type} (l₁ l₂ : List α) :
    (l₁ ++ l₂).take l₁.length = l₁ := by
  induction l₁ with
  | nil => rfl
  | cons a l ih => simp [ih]

/-- Dropping the length of the left part of an append returns the right
part. -/
theorem drop_append_self {α : Type} (l₁ l₂ : List α) :
    (l₁ ++ l₂).drop l₁.length = l₂ := by
  induction l₁ with
  | nil => rfl
  | cons a l ih => simp [ih]

/-- A well-formed frame at the head of the stream is delivered as its
decoded message, and reading continues exactly after its payload. -/
theorem read_frame_delivers (decode : List Nat → Except String BridgeMessage)
    (bytes : List Nat) (m : BridgeMessage) (rest : List Nat)
    (hdec : decode bytes = .ok m) (hlen : bytes.length ≤ bridgeMaxLen) :
    readNativeMessages decode (le32 bytes.length ++ (bytes ++ rest)) =
      m :: readNativeMessages decode rest := by
  have hval : leU32 (bytes.length % 256) (bytes.length / 256 % 256)
      (bytes.length / 65536 % 256) (bytes.length / 16777216 % 256) = bytes.length := by
    unfold bridgeMaxLen at hlen
    unfold leU32
    omega
  unfold readNativeMessages le32
  simp only [List.cons_append, List.nil_append, List.append_eq, List.length_cons,
    readFramesAux, hval]
  rw [if_neg (by omega : ¬ bytes.length > bridgeMaxLen)]
  rw [if_neg (by rw [List.length_append]; omega : ¬ (bytes ++ rest).length < bytes.length)]
  rw [take_append_self, hdec, drop_append_self]
  have hr : rest.length ≤ (bytes ++ rest).length + 3 := by
    rw [List.length_append]
    omega
  rw [readFramesAux_fuel decode ((bytes ++ rest).length + 3) rest hr]

/-- C8: writing any message whose serialized payload fits the bound and
then reading the stream back yields the original structured message
first, with the remainder of the stream read unchanged afterwards —
framing a message and reading it is the identity on messages. -/
theorem framed_write_read_roundtrip (decode : List Nat → Except String BridgeMessage)
    (encode : BridgeMessage → List Nat) (m : BridgeMessage) (rest : List Nat)
    (hdec : decode (encode m) = .ok m)
    (hlen : (encode m).length ≤ bridgeMaxLen) :
    readNativeMessages decode (writeNativeMessage encode m ++ rest) =
      m :: readNativeMessages decode rest := by
  unfold writeNativeMessage
  rw [List.append_assoc]
  exact read_frame_delivers decode (encode m) m rest hdec hlen

/-- Witness for `framed_write_read_roundtrip` at the demo codec and
message. -/
theorem framed_write_read_roundtrip_witness :
    readNativeMessages demoDecode (writeNativeMessage demoEncode demoMsg ++ []) =
      demoMsg :: readNativeMessages demoDecode [] :=
  framed_write_read_roundtrip demoDecode demoEncode demoMsg []
    rfl (by decide)

/-- A run of `FF FF FF FF` blocks is skipped header by header. -/
theorem read_skip_oversizeBlocks (decode : List Nat → Except String BridgeMessage)
    (k : Nat) : ∀ s, readNativeMessages decode (oversizeBlocks k ++ s) =
      readNativeMessages decode s := by
  induction k with
  | zero => intro s; rfl
  | succ k ih =>
    intro s
    show readNativeMessages decode
        (255 :: 255 :: 255 :: 255 :: (oversizeBlocks k ++ s)) = _
    rw [read_step_oversize decode 255 255 255 255 _ (by decide)]
    exact ih s

/-- C7 counterexample: a frame whose declared length `1048578` exceeds
the 1 MiB bound, carried in full (payload of exactly `1048578` bytes)
and followed by a well-formed frame of the demo codec, makes the reader
deliver nothing at all: the rejected frame's payload is reinterpreted
as framing, so the subsequent well-formed frame is not read (and hence
can never be correlated). -/
theorem oversized_frame_desyncs_reader :
    oversizePayload.length = 1048578 ∧
    1048578 > bridgeMaxLen ∧
    demoDecode [1] = .ok demoMsg ∧
    wellFormedFrame = le32 ([1] : List Nat).length ++ [1] ∧
    readNativeMessages demoDecode desyncStream = [] := by
  have hblocks : ∀ k, (oversizeBlocks k).length = 4 * k := by
    intro k
    induction k with
    | zero => rfl
    | succ k ih =>
      simp only [oversizeBlocks, List.length_cons, ih]
      omega
  refine ⟨?_, by decide, rfl, rfl, ?_⟩
  · simp only [oversizePayload, List.length_append, hblocks]
    rfl
  · have h1 : desyncStream =
        2 :: 0 :: 16 :: 0 :: (oversizePayload ++ wellFormedFrame) := by
      unfold desyncStream
      rw [show le32 1048578 = [2, 0, 16, 0] by decide]
      simp [List.append_assoc]
    rw [h1, read_step_oversize demoDecode 2 0 16 0 _ (by decide)]
    unfold oversizePayload
    rw [List.append_assoc, read_skip_oversizeBlocks]
    decide

/-- C7 (amended): the reader rejects an oversized declared length by
logging and continuing — it never crashes — but it consumes only the
4-byte length header and resumes parsing at the very next byte.  When
the bogus declaration carried no payload (the next bytes are the next
frame), subsequent well-formed frames are still read and delivered
correctly; when the declared payload bytes are actually present on the
stream, they are reinterpreted as framing (see the counterexample), so
resynchronization is not guaranteed. -/
theorem oversized_length_skips_header_only
    (decode : List Nat → Except String BridgeMessage)
    (b0 b1 b2 b3 : Nat) (h : leU32 b0 b1 b2 b3 > bridgeMaxLen) :
    (∀ rest, readNativeMessages decode (b0 :: b1 :: b2 :: b3 :: rest) =
      readNativeMessages decode rest) ∧
    (∀ (bytes : List Nat) (m : BridgeMessage) (rest : List Nat),
      decode bytes = .ok m → bytes.length ≤ bridgeMaxLen →
      readNativeMessages decode
          (b0 :: b1 :: b2 :: b3 :: (le32 bytes.length ++ (bytes ++ rest))) =
        m :: readNativeMessages decode rest) := by
  constructor
  · intro rest
    exact read_step_oversize decode b0 b1 b2 b3 rest h
  · intro bytes m rest hdec hlen
    rw [read_step_oversize decode b0 b1 b2 b3 _ h]
    exact read_frame_delivers decode bytes m rest hdec hlen

/-- Witness for `oversized_length_skips_header_only`: a bare oversized
header followed by a well-formed demo frame still delivers the demo
message. -/
theorem oversized_length_skips_header_only_witness :
    readNativeMessages demoDecode
        (255 :: 255 :: 255 :: 255 :: (le32 ([1] : List Nat).length ++ ([1] ++ []))) =
      demoMsg :: readNativeMessages demoDecode [] :=
  (oversized_length_skips_header_only demoDecode 255 255 255 255 (by decide)).2
    [1] demoMsg [] rfl (by decide)

/-- Stripping a leading segment that is literally there succeeds with
the remainder. -/
theorem dropStart?_append : ∀ p l : Str, dropStart? p (p ++ l) = some l := by
  intro p
  induction p with
  | nil => intro l; rfl
  | cons c cs ih => intro l; simp [dropStart?, ih]

/-- Stripping a trailing segment that is literally there succeeds with
the front part. -/
theorem endsWithDrop?_append (l suf : Str) : endsWithDrop? suf (l ++ suf) = some l := by
  unfold endsWithDrop?
  rw [List.reverse_append, dropStart?_append]
  simp

/-- Splitting at the first slash of `v ++ '/' :: rest`, for slash-free
`v`, returns `(v, rest)`. -/
theorem splitFirstSlash_append (v rest : Str) (hv : '/' ∉ v) :
    splitFirstSlash (v ++ '/' :: rest) = some (v, rest) := by
  induction v with
  | nil => simp [splitFirstSlash]
  | cons c cs ih =>
    have hc : ¬ c = '/' := fun h => hv (h ▸ List.mem_cons_self c cs)
    have hcs : '/' ∉ cs := fun h => hv (List.mem_cons_of_mem c h)
    simp [splitFirstSlash, hc, ih hcs]

/-- A registry URL never carries the `./` local marker. -/
theorem goHasPrefix_dot_gcs (l : Str) :
    goHasPrefix (str "./") (gcsBaseURL ++ l) = false := rfl

/-- A registry URL never carries the `/` local marker. -/
theorem goHasPrefix_slash_gcs (l : Str) :
    goHasPrefix (str "/") (gcsBaseURL ++ l) = false := rfl

/-- The registry URL built for a slash-free nonempty name and version
matches the artifact pattern with exactly that version and name. -/
theorem matchPluginURL_canonical (name v : Str) (hn : name ≠ []) (hns : '/' ∉ name)
    (hv : v ≠ []) (hvs : '/' ∉ v) :
    matchPluginURL (gcsBaseURL ++ str "/" ++ v ++ str "/plugin-" ++ name ++ str ".wasm") =
      some (v, name) := by
  have hshape : gcsBaseURL ++ str "/" ++ v ++ str "/plugin-" ++ name ++ str ".wasm" =
      (gcsBaseURL ++ str "/") ++ (v ++ '/' :: (str "plugin-" ++ (name ++ str ".wasm"))) := by
    simp only [List.append_assoc]
    rfl
  have hdrop : dropStart? (gcsBaseURL ++ str "/")
      (gcsBaseURL ++ (str "/" ++ (v ++ '/' :: (str "plugin-" ++ (name ++ str ".wasm"))))) =
      some (v ++ '/' :: (str "plugin-" ++ (name ++ str ".wasm"))) := by
    rw [← List.append_assoc]
    exact dropStart?_append _ _
  rw [hshape]
  simp [matchPluginURL, hdrop, dropStart?_append, splitFirstSlash_append _ _ hvs,
    endsWithDrop?_append, hv, hn, hns]

/-- C9: `ParsePluginSource` is a pure total function of the source
string (it performs no I/O and is deterministic by construction), and
it classifies every source as the code does: a `./` or `/` path yields
a local plugin named by the final path segment; otherwise a string
matching the versioned-artifact pattern yields a registry (WASM) plugin
with that name and version; otherwise a source the URL parser accepts
with scheme `http` or `https` yields an HTTP plugin; any other scheme
is an error. -/
theorem parsePluginSource_classification (urlParse : Str → Except String URLv)
    (source : Str) :
    (goHasPrefix (str "./") source = true ∨ goHasPrefix (str "/") source = true →
      parsePluginSource urlParse source =
        .ok ⟨PluginType.local, filepathBase source, [], source⟩) ∧
    (goHasPrefix (str "./") source = false → goHasPrefix (str "/") source = false →
      ∀ v n, matchPluginURL source = some (v, n) →
        parsePluginSource urlParse source = .ok ⟨PluginType.wasm, n, v, source⟩) ∧
    (goHasPrefix (str "./") source = false → goHasPrefix (str "/") source = false →
      matchPluginURL source = none →
      ∀ u, urlParse source = .ok u →
        (u.scheme = str "http" ∨ u.scheme = str "https") →
        parsePluginSource urlParse source = .ok ⟨PluginType.http, u.path, [], source⟩) ∧
    (goHasPrefix (str "./") source = false → goHasPrefix (str "/") source = false →
      matchPluginURL source = none →
      ∀ u, urlParse source = .ok u →
        u.scheme ≠ str "http" → u.scheme ≠ str "https" →
        parsePluginSource urlParse source =
          .error ("unsupported plugin scheme: " ++ String.mk u.scheme)) := by
  refine ⟨?_, ?_, ?_, ?_⟩
  · intro h
    rcases h with h | h <;> simp [parsePluginSource, h]
  · intro h1 h2 v n hm
    simp [parsePluginSource, h1, h2, hm]
  · intro h1 h2 hm u hu hs
    simp [parsePluginSource, h1, h2, hm, hu, hs]
  · intro h1 h2 hm u hu hs1 hs2
    simp [parsePluginSource, h1, h2, hm, hu, hs1, hs2]

/-- Witness for `parsePluginSource_classification`: the canonical
GitHub plugin URL parses as a registry artifact with name `github` and
version `v0.1.0`, under the concrete `net/url` model. -/
theorem parsePluginSource_classification_witness :
    parsePluginSource urlParseGo
        (str "https://storage.googleapis.com/mcper-releases/v0.1.0/plugin-github.wasm") =
      .ok ⟨PluginType.wasm, str "github", str "v0.1.0",
        str "https://storage.googleapis.com/mcper-releases/v0.1.0/plugin-github.wasm"⟩ :=
  (parsePluginSource_classification urlParseGo
      (str "https://storage.googleapis.com/mcper-releases/v0.1.0/plugin-github.wasm")).2.1
    (by decide) (by decide) (str "v0.1.0") (str "github") (by decide)

/-- C10: canonical registry URLs round-trip through the parser.  For a
nonempty slash-free name and a nonempty slash-free version,
`ParsePluginSource (PluginURL name version)` yields a WASM-typed
registry plugin with exactly that name and version; with an empty
version, `PluginURL` substitutes the marker `latest`, which parses back
as the version `latest`. -/
theorem pluginURL_parse_roundtrip (urlParse : Str → Except String URLv)
    (name version : Str) (hn : name ≠ []) (hns : '/' ∉ name) :
    (version ≠ [] → '/' ∉ version →
      parsePluginSource urlParse (pluginURL name version) =
        .ok ⟨PluginType.wasm, name, version, pluginURL name version⟩) ∧
    (parsePluginSource urlParse (pluginURL name []) =
      .ok ⟨PluginType.wasm, name, str "latest", pluginURL name []⟩) := by
  have main : ∀ v : Str, v ≠ [] → '/' ∉ v →
      parsePluginSource urlParse
          (gcsBaseURL ++ str "/" ++ v ++ str "/plugin-" ++ name ++ str ".wasm") =
        .ok ⟨PluginType.wasm, name, v,
          gcsBaseURL ++ str "/" ++ v ++ str "/plugin-" ++ name ++ str ".wasm"⟩ := by
    intro v hv hvs
    have hdot := goHasPrefix_dot_gcs (str "/" ++ v ++ str "/plugin-" ++ name ++ str ".wasm")
    have hslash := goHasPrefix_slash_gcs (str "/" ++ v ++ str "/plugin-" ++ name ++ str ".wasm")
    have hmatch := matchPluginURL_canonical name v hn hns hv hvs
    simp only [List.append_assoc] at hdot hslash hmatch ⊢
    simp [parsePluginSource, hdot, hslash, hmatch]
  constructor
  · intro hv hvs
    have hv' : pluginURL name version =
        gcsBaseURL ++ str "/" ++ version ++ str "/plugin-" ++ name ++ str ".wasm" := by
      simp [pluginURL, hv]
    rw [hv']
    exact main version hv hvs
  · have hl : pluginURL name [] =
        gcsBaseURL ++ str "/" ++ str "latest" ++ str "/plugin-" ++ name ++ str ".wasm" := by
      simp [pluginURL]
    rw [hl]
    exact main (str "latest") (by decide) (by decide)

/-- Witness for `pluginURL_parse_roundtrip`: the name `linkedin` at
version `v1.2.0` and at the empty version. -/
theorem pluginURL_parse_roundtrip_witness :
    parsePluginSource urlParseGo (pluginURL (str "linkedin") (str "v1.2.0")) =
      .ok ⟨PluginType.wasm, str "linkedin", str "v1.2.0",
        pluginURL (str "linkedin") (str "v1.2.0")⟩ ∧
    parsePluginSource urlParseGo (pluginURL (str "linkedin") []) =
      .ok ⟨PluginType.wasm, str "linkedin", str "latest",
        pluginURL (str "linkedin") []⟩ :=
  ⟨(pluginURL_parse_roundtrip urlParseGo (str "linkedin") (str "v1.2.0")
      (by decide) (by decide)).1 (by decide) (by decide),
    (pluginURL_parse_roundtrip urlParseGo (str "linkedin") []
      (by decide) (by decide)).2⟩

end Mcper
